import Mathlib

/-
  Verification of the business-rule core of the time-tracking and invoicing
  system, as a shallow embedding of the TypeScript services into Lean.

  Modelling conventions:
  * JS numbers are modelled as rationals (ℚ).
  * Timestamps (Date values compared via getTime) are ℤ milliseconds since
    the epoch; calendar days (values compared after truncation to the day,
    i.e. toISOString().split('T')[0] / setHours(0,0,0,0)) are ℤ day indices.
  * Fallible service operations return Except; the in-memory mock store is
    passed as explicit state.
  * The impure fresh-id source (crypto.randomUUID, the entry counter) is an
    explicit counter or an id stream consumed in call order.
-/

/-- JS Math.round: rounds half up (Math.round x = ⌊x + 0.5⌋). -/
def jsMathRound (x : ℚ) : ℤ := ⌊x + 1/2⌋

/-- Modelled from the spec: rounding to 2 decimal places using
round-half-up on the cent boundary. -/
def round2 (x : ℚ) : ℚ := ((⌊x * 100 + 1/2⌋ : ℤ) : ℚ) / 100

/-- JS truthiness of an optional string (undefined and the empty string are
falsy, every other string is truthy). -/
def strTruthy : Option String → Bool
  | none => false
  | some s => !(s == "")

namespace Validators

/- Source: packages/backend/src/validators/index.ts -/

structure ValidationResult where
  valid : Bool
  error : Option String
  deriving DecidableEq

/-- validateRate: valid iff the rate is a positive number.  The
typeof / isNaN guards of the source are unrepresentable for ℚ inputs. -/
def validateRate (rate : ℚ) : ValidationResult :=
  if rate ≤ 0 then ⟨false, some "Rate must be a positive number"⟩
  else ⟨true, none⟩

/-- validateDuration: valid iff 0 < duration ≤ 24. -/
def validateDuration (duration : ℚ) : ValidationResult :=
  if duration ≤ 0 then ⟨false, some "Duration must be a positive number"⟩
  else if duration > 24 then ⟨false, some "Duration cannot exceed 24 hours"⟩
  else ⟨true, none⟩

/-- validateActivityDate at day granularity: the source compares the input
normalized to the start of its day against the start of the day 30 days
before the reference date and against the reference day's 23:59:59.999,
which collapses to day-index comparisons. -/
def validateActivityDate (day refDay : ℤ) : ValidationResult :=
  if day < refDay - 30 then
    ⟨false, some "Date cannot be more than 30 days in the past"⟩
  else if day > refDay then ⟨false, some "Date cannot be in the future"⟩
  else ⟨true, none⟩

end Validators

namespace TimeEntryService

/- Source: src/unnamed/part_013 (time-entry service). -/

/-- calculateAmount: 0 when not billable, otherwise
Math.round(rate * duration * 100) / 100. -/
def calculateAmount (rate duration : ℚ) (billable : Bool) : ℚ :=
  if !billable then 0
  else ((jsMathRound (rate * duration * 100) : ℤ) : ℚ) / 100

def twentyFourHoursMs : ℤ := 24 * 60 * 60 * 1000

/-- canModifyEntry: currentTime - entryCreatedAt ≤ 24h (in ms). -/
def canModifyEntry (entryCreatedAt currentTime : ℤ) : Bool :=
  decide (currentTime - entryCreatedAt ≤ twentyFourHoursMs)

/-- isEntryOwner: strict equality of employee id and user id. -/
def isEntryOwner (entryEmployeeId userId : String) : Bool :=
  entryEmployeeId == userId

/-- canUserModifyEntry: owns the entry AND within the 24-hour window. -/
def canUserModifyEntry (entryEmployeeId : String) (entryCreatedAt : ℤ)
    (userId : String) (currentTime : ℤ) : Bool :=
  isEntryOwner entryEmployeeId userId &&
    canModifyEntry entryCreatedAt currentTime

end TimeEntryService

/-- Decimal digits of n, least-significant first, computed with explicit
fuel so that it reduces definitionally (n itself is enough fuel). -/
def natToDigitsRev : Nat → Nat → List Nat
  | 0, _ => []
  | fuel + 1, n => if n = 0 then [] else n % 10 :: natToDigitsRev fuel (n / 10)

/-- Decimal digit characters of n, most-significant first. -/
def natChars (n : Nat) : List Char :=
  ((natToDigitsRev n n).reverse.map Nat.digitChar)

/-- Decimal rendering of a Nat, as JS String(n). -/
def natStr (n : Nat) : String :=
  if n = 0 then "0" else String.mk (natChars n)

namespace TimeEntryService

inductive EntryStatus where
  | pending
  | approved
  | rejected
  deriving DecidableEq

/-- A stored time entry (mock-db TimeEntry shape restricted to the scalar
fields; the denormalized client/service lookups carry no extra state). -/
structure Entry where
  id : String
  employeeId : String
  clientId : String
  serviceId : String
  activityDate : ℤ
  memo : Option String
  rate : ℚ
  duration : ℚ
  billable : Bool
  amount : ℚ
  status : EntryStatus
  createdAt : ℤ
  deriving DecidableEq

/-- The in-process store (mockDb): the time-entry collection plus the
entry id counter. -/
structure DbState where
  timeEntries : List Entry
  entryCounter : Nat
  deriving DecidableEq

structure CreateTimeEntryInput where
  clientId : String
  serviceId : String
  activityDate : ℤ
  memo : Option String
  rate : ℚ
  duration : ℚ
  billable : Bool
  deriving DecidableEq

structure UpdateTimeEntryInput where
  clientId : Option String
  serviceId : Option String
  activityDate : Option ℤ
  memo : Option String
  rate : Option ℚ
  duration : Option ℚ
  billable : Option Bool
  deriving DecidableEq

/-- The typed error outcomes of the service layer (types/errors.ts);
each ApiError.xxx factory is one constructor. -/
inductive ApiError where
  | validation (details : List (String × List String))
  | forbidden (message : String)
  | notFound (message : String)
  | modificationWindowExpired
  deriving DecidableEq

/-- mockDb.findTimeEntryById: first entry with the given id. -/
def findTimeEntryById (st : DbState) (id : String) : Option Entry :=
  st.timeEntries.find? (fun e => e.id == id)

/-- mockDb.updateTimeEntry merge step: replace the entry at the first index
with matching id (findIndex + splice-in-place). -/
def replaceFirstById : List Entry → String → Entry → List Entry
  | [], _, _ => []
  | e :: es, id, ne =>
    if e.id == id then ne :: es else e :: replaceFirstById es id ne

/-- createTimeEntry: validate rate, duration, activityDate in order
(throwing on the first failure), compute the amount, persist with status
pending.  now is the clock in ms, todayDay the clock's day index. -/
def createTimeEntry (st : DbState) (userId : String)
    (input : CreateTimeEntryInput) (now todayDay : ℤ) :
    Except ApiError (Entry × DbState) :=
  let rateValidation := Validators.validateRate input.rate
  if !rateValidation.valid then
    .error (.validation [("rate", [rateValidation.error.getD ""])])
  else
    let durationValidation := Validators.validateDuration input.duration
    if !durationValidation.valid then
      .error (.validation [("duration", [durationValidation.error.getD ""])])
    else
      let dateValidation :=
        Validators.validateActivityDate input.activityDate todayDay
      if !dateValidation.valid then
        .error
          (.validation [("activityDate", [dateValidation.error.getD ""])])
      else
        let amount := calculateAmount input.rate input.duration input.billable
        let newEntry : Entry :=
          { id := "entry-" ++ natStr (st.entryCounter + 1)
            employeeId := userId
            clientId := input.clientId
            serviceId := input.serviceId
            activityDate := input.activityDate
            memo := input.memo
            rate := input.rate
            duration := input.duration
            billable := input.billable
            amount := amount
            status := .pending
            createdAt := now }
        .ok (newEntry,
          { timeEntries := st.timeEntries ++ [newEntry]
            entryCounter := st.entryCounter + 1 })

/-- Validation of the rate field of an update, when provided. -/
def rateError (rate : Option ℚ) : Option ApiError :=
  match rate with
  | some r =>
    if !(Validators.validateRate r).valid then
      some (.validation [("rate", [(Validators.validateRate r).error.getD ""])])
    else none
  | none => none

/-- Validation of the duration field of an update, when provided. -/
def durationError (duration : Option ℚ) : Option ApiError :=
  match duration with
  | some d =>
    if !(Validators.validateDuration d).valid then
      some (.validation
        [("duration", [(Validators.validateDuration d).error.getD ""])])
    else none
  | none => none

/-- Validation of the activityDate field of an update, when provided. -/
def dateError (activityDate : Option ℤ) (todayDay : ℤ) : Option ApiError :=
  match activityDate with
  | some d =>
    if !(Validators.validateActivityDate d todayDay).valid then
      some (.validation [("activityDate",
        [(Validators.validateActivityDate d todayDay).error.getD ""])])
    else none
  | none => none

/-- The first validation failure of updateTimeEntry, in source order
(rate, then duration, then activityDate). -/
def firstUpdateValidationError (input : UpdateTimeEntryInput)
    (todayDay : ℤ) : Option ApiError :=
  match rateError input.rate with
  | some e => some e
  | none =>
    match durationError input.duration with
    | some e => some e
    | none => dateError input.activityDate todayDay

/-- The merged entry persisted by updateTimeEntry: spread of the old entry,
then the provided patch fields, then the recomputed amount. -/
def mergeEntry (e : Entry) (input : UpdateTimeEntryInput) (amount : ℚ) :
    Entry :=
  { e with
    clientId := input.clientId.getD e.clientId
    serviceId := input.serviceId.getD e.serviceId
    activityDate := input.activityDate.getD e.activityDate
    memo := match input.memo with | some m => some m | none => e.memo
    rate := input.rate.getD e.rate
    duration := input.duration.getD e.duration
    billable := input.billable.getD e.billable
    amount := amount }

/-- updateTimeEntry: fetch, check ownership+window (Forbidden when not the
owner, ModificationWindowExpired when the owner but stale), validate the
provided fields, recompute the amount from the effective values, persist
the merged entry. -/
def updateTimeEntry (st : DbState) (userId entryId : String)
    (input : UpdateTimeEntryInput) (now todayDay : ℤ) :
    Except ApiError (Entry × DbState) :=
  match findTimeEntryById st entryId with
  | none => .error (.notFound "Time entry not found")
  | some entry =>
    if !(canUserModifyEntry entry.employeeId entry.createdAt userId now) then
      if !(isEntryOwner entry.employeeId userId) then
        .error (.forbidden "You can only modify your own entries")
      else
        .error .modificationWindowExpired
    else
      match firstUpdateValidationError input todayDay with
      | some err => .error err
      | none =>
        let newRate := input.rate.getD entry.rate
        let newDuration := input.duration.getD entry.duration
        let newBillable := input.billable.getD entry.billable
        let amount := calculateAmount newRate newDuration newBillable
        let updated := mergeEntry entry input amount
        .ok (updated,
          { st with
            timeEntries := replaceFirstById st.timeEntries entryId updated })

/-- deleteTimeEntry: fetch, check ownership+window, remove the entry
(splice at the first matching index). -/
def deleteTimeEntry (st : DbState) (userId entryId : String) (now : ℤ) :
    Except ApiError DbState :=
  match findTimeEntryById st entryId with
  | none => .error (.notFound "Time entry not found")
  | some entry =>
    if !(canUserModifyEntry entry.employeeId entry.createdAt userId now) then
      if !(isEntryOwner entry.employeeId userId) then
        .error (.forbidden "You can only delete your own entries")
      else
        .error .modificationWindowExpired
    else
      .ok { st with
        timeEntries := st.timeEntries.eraseP (fun e => e.id == entryId) }

end TimeEntryService

namespace RateService

/- Source: packages/backend/src/services/rate.service.ts -/

structure Rate where
  id : String
  serviceId : String
  employeeId : Option String
  hourlyRate : ℚ
  deriving DecidableEq

/-- getEffectiveRate: when employeeId is truthy, first look for an
employee-specific rate for the service; otherwise, or when none is found,
fall back to the default rate (employeeId null), else null. -/
def getEffectiveRate (rates : List Rate) (serviceId : String)
    (employeeId : Option String) : Option ℚ :=
  let employeeRate : Option Rate :=
    if strTruthy employeeId then
      rates.find? (fun r =>
        r.serviceId == serviceId && r.employeeId == employeeId)
    else none
  match employeeRate with
  | some r => some r.hourlyRate
  | none =>
    match rates.find? (fun r =>
        r.serviceId == serviceId && r.employeeId == none) with
    | some r => some r.hourlyRate
    | none => none

end RateService

namespace Filtering

/- Source: the filtering service inlined in
packages/backend/src/services/excel.service.test.ts (lines 160-236). -/

structure TimeEntry where
  id : String
  employeeId : String
  clientId : String
  activityDate : ℤ
  billable : Bool
  deriving DecidableEq

/-- Filters for the employee view (TimeEntryFilters without employeeId). -/
structure EmployeeFilters where
  clientId : Option String
  startDate : Option ℤ
  endDate : Option ℤ
  billable : Option Bool
  deriving DecidableEq

/-- Filters for the admin view (TimeEntryFilters). -/
structure TimeEntryFilters where
  employeeId : Option String
  clientId : Option String
  startDate : Option ℤ
  endDate : Option ℤ
  billable : Option Bool
  deriving DecidableEq

/-- The guard "filters.x && entry.x !== filters.x" for a string filter:
rejects only when the filter is truthy (present and nonempty) and differs
from the entry value. -/
def truthyNeq : Option String → String → Bool
  | none, _ => false
  | some c, v => !(c == "") && !(v == c)

/-- The guard "filters.startDate && entry.activityDate < filters.startDate"
(a present Date object is always truthy). -/
def beforeStart : Option ℤ → ℤ → Bool
  | none, _ => false
  | some s, d => decide (d < s)

/-- The guard "filters.endDate && entry.activityDate > filters.endDate". -/
def afterEnd : Option ℤ → ℤ → Bool
  | none, _ => false
  | some t, d => decide (t < d)

/-- The guard "filters.billable !== undefined && entry.billable !==
filters.billable". -/
def billableMismatch : Option Bool → Bool → Bool
  | none, _ => false
  | some b, v => v != b

/-- The early-return chain of filterEntriesForEmployee as a conjunction of
negated rejection guards. -/
def employeePred (employeeId : String) (filters : EmployeeFilters)
    (e : TimeEntry) : Bool :=
  e.employeeId == employeeId &&
    !(truthyNeq filters.clientId e.clientId) &&
    !(beforeStart filters.startDate e.activityDate) &&
    !(afterEnd filters.endDate e.activityDate) &&
    !(billableMismatch filters.billable e.billable)

/-- filterEntriesForEmployee: mandatory employee filter, then the optional
filters conjunctively. -/
def filterEntriesForEmployee (entries : List TimeEntry) (employeeId : String)
    (filters : EmployeeFilters) : List TimeEntry :=
  entries.filter (employeePred employeeId filters)

/-- The early-return chain of filterEntriesForAdmin. -/
def adminPred (filters : TimeEntryFilters) (e : TimeEntry) : Bool :=
  !(truthyNeq filters.employeeId e.employeeId) &&
    !(truthyNeq filters.clientId e.clientId) &&
    !(beforeStart filters.startDate e.activityDate) &&
    !(afterEnd filters.endDate e.activityDate) &&
    !(billableMismatch filters.billable e.billable)

/-- filterEntriesForAdmin: all filters optional, conjunctive. -/
def filterEntriesForAdmin (entries : List TimeEntry)
    (filters : TimeEntryFilters) : List TimeEntry :=
  entries.filter (adminPred filters)

end Filtering

namespace ExcelService

/- Source: packages/backend/src/services/excel.service.ts -/

def msPerDay : ℤ := 86400000

/-- Day index of a ms timestamp: toISOString().split('T')[0] renders the
UTC day, which is the floor division of the timestamp by 86400000; the
"YYYY-MM-DD" strings are in bijection with day indices. -/
def dayOfMs (ms : ℤ) : ℤ := Int.fdiv ms msPerDay

structure TimeEntryExport where
  id : String
  employeeId : String
  employeeName : Option String
  clientId : String
  clientName : Option String
  serviceId : String
  serviceName : Option String
  activityDate : ℤ
  memo : String
  rate : ℚ
  duration : ℚ
  billable : Bool
  amount : ℚ
  deriving DecidableEq

/-- One exported tabular row.  The date cell holds the day index standing
for its "YYYY-MM-DD" rendering; the billable cell is the "Yes"/"No"
string. -/
structure ExportRow where
  activityDate : ℤ
  employeeName : String
  clientName : String
  serviceName : String
  memo : String
  duration : ℚ
  rate : ℚ
  billable : String
  amount : ℚ
  deriving DecidableEq

/-- transformEntriesForExport: flatten each entry to a row (date truncated
to the day, billable encoded as Yes/No, names defaulting to ids). -/
def transformEntriesForExport (entries : List TimeEntryExport) :
    List ExportRow :=
  entries.map (fun e =>
    { activityDate := dayOfMs e.activityDate
      employeeName := e.employeeName.getD e.employeeId
      clientName := e.clientName.getD e.clientId
      serviceName := e.serviceName.getD e.serviceId
      memo := e.memo
      duration := e.duration
      rate := e.rate
      billable := if e.billable then "Yes" else "No"
      amount := e.amount })

/-- Partial<TimeEntryExport> as produced by parseExportedData. -/
structure ParsedEntry where
  activityDate : Option ℤ
  employeeName : Option String
  clientName : Option String
  serviceName : Option String
  memo : Option String
  duration : ℚ
  rate : ℚ
  billable : Bool
  amount : ℚ
  deriving DecidableEq

/-- parseExportedData: the date cell (a nonempty day string, hence truthy)
parses back to the midnight-UTC timestamp of its day; numeric cells are
already numbers; billable is the comparison against "Yes". -/
def parseExportedData (rows : List ExportRow) : List ParsedEntry :=
  rows.map (fun r =>
    { activityDate := some (r.activityDate * msPerDay)
      employeeName := some r.employeeName
      clientName := some r.clientName
      serviceName := some r.serviceName
      memo := some r.memo
      duration := r.duration
      rate := r.rate
      billable := (r.billable == "Yes")
      amount := r.amount })

end ExcelService

namespace InvoiceService

/- Source: packages/backend/src/services/invoice.service.ts -/

structure TimeEntry where
  id : String
  employeeId : String
  clientId : String
  serviceId : String
  activityDate : ℤ
  memo : String
  rate : ℚ
  duration : ℚ
  billable : Bool
  amount : ℚ
  deriving DecidableEq

inductive LineItemType where
  | time_entry
  | additional_charge
  deriving DecidableEq

structure InvoiceLineItem where
  id : String
  invoiceId : String
  timeEntryId : Option String
  description : String
  quantity : ℚ
  rate : ℚ
  amount : ℚ
  itemType : LineItemType
  deriving DecidableEq

inductive InvoiceStatus where
  | draft
  | sent
  | paid
  deriving DecidableEq

structure Invoice where
  id : String
  invoiceNumber : String
  clientId : String
  startDate : ℤ
  endDate : ℤ
  subtotal : ℚ
  total : ℚ
  status : InvoiceStatus
  generatedAt : ℤ
  lineItems : List InvoiceLineItem
  createdAt : ℤ
  updatedAt : ℤ
  deriving DecidableEq

structure AdditionalCharge where
  description : String
  amount : ℚ
  deriving DecidableEq

structure GenerateInvoiceInput where
  clientId : String
  startDate : ℤ
  endDate : ℤ
  additionalCharges : Option (List AdditionalCharge)
  deriving DecidableEq

/-- getBillableEntriesForInvoice: billable entries of the client whose
activityDate lies in [startDate, endDate], both ends inclusive. -/
def getBillableEntriesForInvoice (entries : List TimeEntry)
    (clientId : String) (startDate endDate : ℤ) : List TimeEntry :=
  entries.filter (fun e =>
    e.clientId == clientId && e.billable &&
      decide (startDate ≤ e.activityDate) && decide (e.activityDate ≤ endDate))

/-- createLineItemsFromEntries: one time_entry line item per entry, amount
copied from the entry.  The impure generateId source is the id stream genId
consumed in call order starting at index i; isoDay renders
toISOString().split('T')[0] for the default description. -/
def createLineItemsFromEntries (isoDay : ℤ → String) :
    List TimeEntry → String → (Nat → String) → Nat → List InvoiceLineItem
  | [], _, _, _ => []
  | e :: es, invoiceId, genId, i =>
    { id := genId i
      invoiceId := invoiceId
      timeEntryId := some e.id
      description :=
        if e.memo == "" then "Service on " ++ isoDay e.activityDate
        else e.memo
      quantity := e.duration
      rate := e.rate
      amount := e.amount
      itemType := .time_entry } ::
      createLineItemsFromEntries isoDay es invoiceId genId (i + 1)

/-- createLineItemsFromCharges: one additional_charge line item per charge,
with quantity 1 and no time entry reference. -/
def createLineItemsFromCharges :
    List AdditionalCharge → String → (Nat → String) → Nat →
      List InvoiceLineItem
  | [], _, _, _ => []
  | ch :: chs, invoiceId, genId, i =>
    { id := genId i
      invoiceId := invoiceId
      timeEntryId := none
      description := ch.description
      quantity := 1
      rate := ch.amount
      amount := ch.amount
      itemType := .additional_charge } ::
      createLineItemsFromCharges chs invoiceId genId (i + 1)

/-- calculateInvoiceTotals: subtotal is the reduce-sum of the line item
amounts; total equals subtotal (no tax). -/
def calculateInvoiceTotals (lineItems : List InvoiceLineItem) : ℚ × ℚ :=
  let subtotal := lineItems.foldl (fun sum item => sum + item.amount) 0
  (subtotal, subtotal)

/-- The invoice number string: prefix-year-paddedCounter, with the counter
zero-padded to at least 6 digits (String(n).padStart(6, '0')). -/
def invoiceNumber (pre : String) (year n : Nat) : String :=
  pre ++ "-" ++ natStr year ++ "-" ++
    String.mk (List.replicate (6 - (natChars n).length) '0' ++ natChars n)

end InvoiceService

/-- The fuel-based digit computation agrees with Nat.digits once the fuel
covers the input. -/
theorem natToDigitsRev_eq_digits :
    ∀ (fuel n : Nat), n ≤ fuel → natToDigitsRev fuel n = Nat.digits 10 n := by
  intro fuel
  induction fuel with
  | zero =>
    intro n h
    have : n = 0 := by omega
    subst this
    simp [natToDigitsRev]
  | succ f ih =>
    intro n h
    by_cases hn : n = 0
    · subst hn
      simp [natToDigitsRev]
    · have hpos : 0 < n := Nat.pos_of_ne_zero hn
      have hdiv : n / 10 < n := Nat.div_lt_self hpos (by norm_num)
      rw [natToDigitsRev, if_neg hn, ih (n / 10) (by omega),
        Nat.digits_def' (by norm_num : (1:ℕ) < 10) hpos]

theorem natChars_eq (n : Nat) :
    natChars n = (Nat.digits 10 n).reverse.map Nat.digitChar := by
  unfold natChars
  rw [natToDigitsRev_eq_digits n n le_rfl]

/-- Nat.digitChar is injective on decimal digits. -/
theorem digitChar_injOn :
    ∀ a < 10, ∀ b < 10, Nat.digitChar a = Nat.digitChar b → a = b := by
  decide

theorem map_digitChar_injOn :
    ∀ (l1 l2 : List Nat), (∀ d ∈ l1, d < 10) → (∀ d ∈ l2, d < 10) →
      l1.map Nat.digitChar = l2.map Nat.digitChar → l1 = l2 := by
  intro l1
  induction l1 with
  | nil =>
    intro l2 _ _ h
    cases l2 with
    | nil => rfl
    | cons b bs => simp at h
  | cons a as ih =>
    intro l2 h1 h2 h
    cases l2 with
    | nil => simp at h
    | cons b bs =>
      simp only [List.map_cons, List.cons.injEq] at h
      have ha : a < 10 := h1 a (by simp)
      have hb : b < 10 := h2 b (by simp)
      have : a = b := digitChar_injOn a ha b hb h.1
      subst this
      rw [ih bs (fun d hd => h1 d (by simp [hd]))
        (fun d hd => h2 d (by simp [hd])) h.2]

/-- The decimal rendering is injective. -/
theorem natChars_inj {a b : Nat} (h : natChars a = natChars b) : a = b := by
  rw [natChars_eq, natChars_eq] at h
  have hrev : (Nat.digits 10 a).reverse = (Nat.digits 10 b).reverse :=
    map_digitChar_injOn _ _
      (fun d hd => Nat.digits_lt_base (by norm_num) (List.mem_reverse.mp hd))
      (fun d hd => Nat.digits_lt_base (by norm_num) (List.mem_reverse.mp hd))
      h
  have hdig : Nat.digits 10 a = Nat.digits 10 b :=
    List.reverse_injective hrev
  calc a = Nat.ofDigits 10 (Nat.digits 10 a) := (Nat.ofDigits_digits 10 a).symm
    _ = Nat.ofDigits 10 (Nat.digits 10 b) := by rw [hdig]
    _ = b := Nat.ofDigits_digits 10 b

theorem natChars_ne_nil {n : Nat} (hn : n ≠ 0) : natChars n ≠ [] := by
  rw [natChars_eq]
  simp [Nat.digits_ne_nil_iff_ne_zero.mpr hn]

/-- A digit other than 0 never renders as the character '0'. -/
theorem digitChar_ne_zero_char :
    ∀ d < 10, d ≠ 0 → Nat.digitChar d ≠ ('0' : Char) := by
  decide

/-- The leading character of the decimal rendering of a nonzero number is
not '0'. -/
theorem natChars_head_ne_zero {n : Nat} (hn : n ≠ 0) (c : Char)
    (cs : List Char) (h : natChars n = c :: cs) : ¬(c == '0') = true := by
  rw [natChars_eq] at h
  have hne : Nat.digits 10 n ≠ [] := Nat.digits_ne_nil_iff_ne_zero.mpr hn
  cases hrv : (Nat.digits 10 n).reverse with
  | nil => exact absurd (List.reverse_eq_nil_iff.mp hrv) hne
  | cons d ds =>
    rw [hrv] at h
    simp only [List.map_cons, List.cons.injEq] at h
    have hdmem : d ∈ Nat.digits 10 n := by
      have : d ∈ (Nat.digits 10 n).reverse := by simp [hrv]
      exact List.mem_reverse.mp this
    have hdlt : d < 10 := Nat.digits_lt_base (by norm_num) hdmem
    have hglast : (Nat.digits 10 n).getLast? = some d := by
      rw [← List.head?_reverse, hrv]
      rfl
    have hdne : d ≠ 0 := by
      intro hd0
      subst hd0
      have hlast := Nat.getLast_digit_ne_zero 10 hn
      rw [List.getLast?_eq_getLast _ hne] at hglast
      exact hlast (Option.some_injective _ hglast)
    have : c = Nat.digitChar d := h.1.symm
    subst this
    simpa using digitChar_ne_zero_char d hdlt hdne

/-- Dropping leading '0's skips any block of padded zeros. -/
theorem dropWhile_replicate_zero (k : Nat) (l : List Char) :
    List.dropWhile (fun x => x == '0') (List.replicate k '0' ++ l)
      = List.dropWhile (fun x => x == '0') l := by
  induction k with
  | zero => simp
  | succ m ih =>
    rw [List.replicate_succ, List.cons_append, List.dropWhile_cons]
    simp [ih]

/-- dropWhile does not drop past a non-'0' head. -/
theorem dropWhile_zero_cons_of_head_ne (c : Char) (cs : List Char)
    (h : ¬(c == '0') = true) :
    List.dropWhile (fun x => x == '0') (c :: cs) = c :: cs := by
  rw [List.dropWhile_cons, if_neg h]

/-- The zero-padded decimal rendering is injective on nonzero numbers. -/
theorem padded_natChars_inj {a b : Nat} (ha : a ≠ 0) (hb : b ≠ 0)
    (h : List.replicate (6 - (natChars a).length) '0' ++ natChars a
      = List.replicate (6 - (natChars b).length) '0' ++ natChars b) :
    a = b := by
  apply natChars_inj
  cases hA : natChars a with
  | nil => exact absurd hA (natChars_ne_nil ha)
  | cons c cs =>
    cases hB : natChars b with
    | nil => exact absurd hB (natChars_ne_nil hb)
    | cons d ds =>
      have hdrop := congrArg (List.dropWhile (fun x => x == '0')) h
      rw [dropWhile_replicate_zero, dropWhile_replicate_zero, hA, hB,
        dropWhile_zero_cons_of_head_ne c cs (natChars_head_ne_zero ha c cs hA),
        dropWhile_zero_cons_of_head_ne d ds
          (natChars_head_ne_zero hb d ds hB)] at hdrop
      exact hdrop

/-- Invoice numbers with the same prefix and year are injective in the
counter (for the nonzero counters the generator produces). -/
theorem invoiceNumber_inj (pre : String) (year : Nat) {a b : Nat}
    (ha : a ≠ 0) (hb : b ≠ 0)
    (h : InvoiceService.invoiceNumber pre year a
      = InvoiceService.invoiceNumber pre year b) : a = b := by
  unfold InvoiceService.invoiceNumber at h
  have hdata := congrArg String.data h
  simp only [String.data_append, List.append_assoc] at hdata
  have h1 := List.append_cancel_left hdata
  have h2 := List.append_cancel_left h1
  have h3 := List.append_cancel_left h2
  have h4 := List.append_cancel_left h3
  exact padded_natChars_inj ha hb h4

namespace InvoiceService

/-- The retry loop of generateInvoiceNumber terminates: some counter value
beyond the current one yields a number outside the finite existing set
(pigeonhole via injectivity of the number format). -/
theorem exists_fresh (pre : String) (year : Nat) (existing : List String)
    (c : Nat) : ∃ k, invoiceNumber pre year (c + 1 + k) ∉ existing := by
  by_contra hall
  push_neg at hall
  have hinj : Set.InjOn (fun k => invoiceNumber pre year (c + 1 + k))
      ↑(Finset.range (existing.length + 1)) := by
    intro x _ y _ hxy
    have := invoiceNumber_inj pre year
      (by omega : c + 1 + x ≠ 0) (by omega : c + 1 + y ≠ 0) hxy
    omega
  have hcard : ((Finset.range (existing.length + 1)).image
      (fun k => invoiceNumber pre year (c + 1 + k))).card
        = existing.length + 1 := by
    rw [Finset.card_image_of_injOn hinj, Finset.card_range]
  have hsub : (Finset.range (existing.length + 1)).image
      (fun k => invoiceNumber pre year (c + 1 + k)) ⊆ existing.toFinset := by
    intro s hs
    rcases Finset.mem_image.mp hs with ⟨k, _, rfl⟩
    exact List.mem_toFinset.mpr (hall k)
  have hle := Finset.card_le_card hsub
  have htf := existing.toFinset_card_le
  omega

/-- generateInvoiceNumber: starting from the injected counter state,
repeatedly increment the counter and format the number until it is not in
existingNumbers; returns the number and the new counter state.  The
module-level invoiceCounter of the source is the explicit counter. -/
def generateInvoiceNumber (pre : String) (year : Nat)
    (existing : List String) (counter : Nat) : String × Nat :=
  let k := Nat.find (exists_fresh pre year existing counter)
  (invoiceNumber pre year (counter + 1 + k), counter + 1 + k)

/-- A sequence of generateInvoiceNumber calls within one process: the
counter threads through, each call with its own existing set. -/
def runInvoiceNumberGenerator (pre : String) (year : Nat) :
    List (List String) → Nat → List String × Nat
  | [], c => ([], c)
  | ex :: rest, c =>
    let one := generateInvoiceNumber pre year ex c
    let more := runInvoiceNumberGenerator pre year rest one.2
    (one.1 :: more.1, more.2)

/-- generateInvoice: select the client's billable entries in the range,
build time-entry line items (amount copied), append additional-charge line
items, subtotal = total = sum of line item amounts, status draft. -/
def generateInvoice (isoDay : ℤ → String) (input : GenerateInvoiceInput)
    (entries : List TimeEntry) (existingInvoiceNumbers : List String)
    (genId : Nat → String) (counter year : Nat) (now : ℤ) : Invoice × Nat :=
  let invoiceId := genId 0
  let gen := generateInvoiceNumber "INV" year existingInvoiceNumbers counter
  let billableEntries :=
    getBillableEntriesForInvoice entries input.clientId input.startDate
      input.endDate
  let entryLineItems :=
    createLineItemsFromEntries isoDay billableEntries invoiceId genId 1
  let chargeLineItems :=
    match input.additionalCharges with
    | some cs =>
      createLineItemsFromCharges cs invoiceId genId
        (1 + billableEntries.length)
    | none => []
  let allLineItems := entryLineItems ++ chargeLineItems
  let totals := calculateInvoiceTotals allLineItems
  ({ id := invoiceId
     invoiceNumber := gen.1
     clientId := input.clientId
     startDate := input.startDate
     endDate := input.endDate
     subtotal := totals.1
     total := totals.2
     status := .draft
     generatedAt := now
     lineItems := allLineItems
     createdAt := now
     updatedAt := now }, gen.2)

end InvoiceService

/-- C1: calculateAmount returns 0 when billable is false, and
round2(rate * duration) (round-half-up at the cent boundary) when billable
is true. -/
theorem C1_calculateAmount_correct : ∀ (rate duration : ℚ),
    TimeEntryService.calculateAmount rate duration false = 0 ∧
    TimeEntryService.calculateAmount rate duration true =
      round2 (rate * duration) := by
  intro r d
  constructor
  · simp [TimeEntryService.calculateAmount]
  · simp only [TimeEntryService.calculateAmount, round2, jsMathRound,
      Bool.not_true, Bool.false_eq_true, if_false]

/-- C2: canUserModifyEntry is true iff the requester is the entry's owner
and at most 24 hours (inclusive) have elapsed since creation; each conjunct
alone is insufficient. -/
theorem C2_canUserModifyEntry_iff :
    (∀ (entryEmployeeId : String) (entryCreatedAt : ℤ) (userId : String)
      (now : ℤ),
      TimeEntryService.canUserModifyEntry entryEmployeeId entryCreatedAt
          userId now = true ↔
        (entryEmployeeId = userId ∧
          now - entryCreatedAt ≤ TimeEntryService.twentyFourHoursMs)) ∧
    TimeEntryService.canUserModifyEntry "emp-1" 0 "emp-2" 0 = false ∧
    TimeEntryService.canUserModifyEntry "emp-1" 0 "emp-1" 86400001 = false := by
  refine ⟨fun eid created uid now => ?_, by decide, by decide⟩
  simp [TimeEntryService.canUserModifyEntry, TimeEntryService.isEntryOwner,
    TimeEntryService.canModifyEntry]

/-- Witness for C2: the owner can modify at exactly the 24-hour boundary. -/
theorem C2_canUserModifyEntry_iff_witness :
    TimeEntryService.canUserModifyEntry "emp-1" 0 "emp-1" 86400000 = true :=
  (C2_canUserModifyEntry_iff.1 "emp-1" 0 "emp-1" 86400000).mpr
    ⟨rfl, by norm_num [TimeEntryService.twentyFourHoursMs]⟩

/-- Every failure produced by the update-field validation step is a
ValidationError. -/
theorem rateError_is_validation (r : Option ℚ) (err : TimeEntryService.ApiError)
    (h : TimeEntryService.rateError r = some err) :
    ∃ d, err = TimeEntryService.ApiError.validation d := by
  cases r with
  | none => simp [TimeEntryService.rateError] at h
  | some v =>
    simp only [TimeEntryService.rateError] at h
    split at h
    · exact ⟨_, (Option.some_injective _ h).symm⟩
    · exact absurd h (by simp)

theorem durationError_is_validation (r : Option ℚ)
    (err : TimeEntryService.ApiError)
    (h : TimeEntryService.durationError r = some err) :
    ∃ d, err = TimeEntryService.ApiError.validation d := by
  cases r with
  | none => simp [TimeEntryService.durationError] at h
  | some v =>
    simp only [TimeEntryService.durationError] at h
    split at h
    · exact ⟨_, (Option.some_injective _ h).symm⟩
    · exact absurd h (by simp)

theorem dateError_is_validation (r : Option ℤ) (todayDay : ℤ)
    (err : TimeEntryService.ApiError)
    (h : TimeEntryService.dateError r todayDay = some err) :
    ∃ d, err = TimeEntryService.ApiError.validation d := by
  cases r with
  | none => simp [TimeEntryService.dateError] at h
  | some v =>
    simp only [TimeEntryService.dateError] at h
    split at h
    · exact ⟨_, (Option.some_injective _ h).symm⟩
    · exact absurd h (by simp)

theorem firstUpdateValidationError_is_validation
    (input : TimeEntryService.UpdateTimeEntryInput) (todayDay : ℤ)
    (err : TimeEntryService.ApiError)
    (h : TimeEntryService.firstUpdateValidationError input todayDay = some err) :
    ∃ d, err = TimeEntryService.ApiError.validation d := by
  unfold TimeEntryService.firstUpdateValidationError at h
  cases hr : TimeEntryService.rateError input.rate with
  | some e =>
    rw [hr] at h
    exact rateError_is_validation _ _ (hr.trans (congrArg some
      (Option.some_injective _ h)))
  | none =>
    rw [hr] at h
    cases hd : TimeEntryService.durationError input.duration with
    | some e =>
      rw [hd] at h
      exact durationError_is_validation _ _ (hd.trans (congrArg some
        (Option.some_injective _ h)))
    | none =>
      rw [hd] at h
      exact dateError_is_validation _ _ _ h

/-- The update validation step fails iff some provided field is invalid. -/
theorem firstUpdateValidationError_isSome_iff
    (input : TimeEntryService.UpdateTimeEntryInput) (todayDay : ℤ) :
    (∃ err, TimeEntryService.firstUpdateValidationError input todayDay
        = some err) ↔
      ((∃ r, input.rate = some r ∧ (Validators.validateRate r).valid = false) ∨
       (∃ d, input.duration = some d ∧
          (Validators.validateDuration d).valid = false) ∨
       (∃ a, input.activityDate = some a ∧
          (Validators.validateActivityDate a todayDay).valid = false)) := by
  unfold TimeEntryService.firstUpdateValidationError TimeEntryService.rateError
    TimeEntryService.durationError TimeEntryService.dateError
  cases hr : input.rate <;> cases hd : input.duration <;>
    cases ha : input.activityDate <;>
      simp only [hr, hd, ha] <;> (try split_ifs) <;> simp_all

/-- C3: updateTimeEntry and deleteTimeEntry fail with exactly one of four
distinguishable typed outcomes: NotFound when no entry with the id exists;
Forbidden when the entry exists but the requester is not its owner;
ModificationWindowExpired when the requester is the owner but more than 24
hours have elapsed since createdAt; ValidationError (update only) when a
provided field fails validation; otherwise the operation succeeds. -/
theorem C3_modification_outcomes :
    ∀ (st : TimeEntryService.DbState) (userId entryId : String)
      (input : TimeEntryService.UpdateTimeEntryInput) (now todayDay : ℤ),
      (TimeEntryService.findTimeEntryById st entryId = none →
        TimeEntryService.updateTimeEntry st userId entryId input now todayDay
            = .error (.notFound "Time entry not found") ∧
        TimeEntryService.deleteTimeEntry st userId entryId now
            = .error (.notFound "Time entry not found")) ∧
      (∀ entry, TimeEntryService.findTimeEntryById st entryId = some entry →
        entry.employeeId ≠ userId →
        TimeEntryService.updateTimeEntry st userId entryId input now todayDay
            = .error (.forbidden "You can only modify your own entries") ∧
        TimeEntryService.deleteTimeEntry st userId entryId now
            = .error (.forbidden "You can only delete your own entries")) ∧
      (∀ entry, TimeEntryService.findTimeEntryById st entryId = some entry →
        entry.employeeId = userId →
        TimeEntryService.twentyFourHoursMs < now - entry.createdAt →
        TimeEntryService.updateTimeEntry st userId entryId input now todayDay
            = .error .modificationWindowExpired ∧
        TimeEntryService.deleteTimeEntry st userId entryId now
            = .error .modificationWindowExpired) ∧
      (∀ entry, TimeEntryService.findTimeEntryById st entryId = some entry →
        entry.employeeId = userId →
        now - entry.createdAt ≤ TimeEntryService.twentyFourHoursMs →
        (∀ err, TimeEntryService.firstUpdateValidationError input todayDay
            = some err →
          TimeEntryService.updateTimeEntry st userId entryId input now todayDay
              = .error err ∧
          ∃ d, err = TimeEntryService.ApiError.validation d) ∧
        (TimeEntryService.firstUpdateValidationError input todayDay = none →
          (∃ res, TimeEntryService.updateTimeEntry st userId entryId input now
              todayDay = .ok res) ∧
          (∃ st2, TimeEntryService.deleteTimeEntry st userId entryId now
              = .ok st2))) ∧
      ((∃ err, TimeEntryService.firstUpdateValidationError input todayDay
          = some err) ↔
        ((∃ r, input.rate = some r ∧
            (Validators.validateRate r).valid = false) ∨
         (∃ d, input.duration = some d ∧
            (Validators.validateDuration d).valid = false) ∨
         (∃ a, input.activityDate = some a ∧
            (Validators.validateActivityDate a todayDay).valid = false))) := by
  intro st userId entryId input now todayDay
  refine ⟨?_, ?_, ?_, ?_, firstUpdateValidationError_isSome_iff input todayDay⟩
  · intro h
    constructor
    · simp [TimeEntryService.updateTimeEntry, h]
    · simp [TimeEntryService.deleteTimeEntry, h]
  · intro entry hfind hne
    have hown : TimeEntryService.isEntryOwner entry.employeeId userId
        = false := by
      simp [TimeEntryService.isEntryOwner, hne]
    have hcan : TimeEntryService.canUserModifyEntry entry.employeeId
        entry.createdAt userId now = false := by
      simp [TimeEntryService.canUserModifyEntry, hown]
    constructor
    · simp [TimeEntryService.updateTimeEntry, hfind, hcan, hown]
    · simp [TimeEntryService.deleteTimeEntry, hfind, hcan, hown]
  · intro entry hfind heq hlt
    have hlt' : (86400000 : ℤ) < now - entry.createdAt := by
      simpa [TimeEntryService.twentyFourHoursMs] using hlt
    have hown : TimeEntryService.isEntryOwner entry.employeeId userId
        = true := by
      simp [TimeEntryService.isEntryOwner, heq]
    have hcmod : TimeEntryService.canModifyEntry entry.createdAt now
        = false := by
      simp [TimeEntryService.canModifyEntry, TimeEntryService.twentyFourHoursMs]
      omega
    have hcan : TimeEntryService.canUserModifyEntry entry.employeeId
        entry.createdAt userId now = false := by
      simp [TimeEntryService.canUserModifyEntry, hcmod]
    constructor
    · simp [TimeEntryService.updateTimeEntry, hfind, hcan, hown]
    · simp [TimeEntryService.deleteTimeEntry, hfind, hcan, hown]
  · intro entry hfind heq hle
    have hle' : now - entry.createdAt ≤ (86400000 : ℤ) := by
      simpa [TimeEntryService.twentyFourHoursMs] using hle
    have hcan : TimeEntryService.canUserModifyEntry entry.employeeId
        entry.createdAt userId now = true := by
      simp [TimeEntryService.canUserModifyEntry, TimeEntryService.isEntryOwner,
        TimeEntryService.canModifyEntry, TimeEntryService.twentyFourHoursMs,
        heq]
      omega
    constructor
    · intro err herr
      refine ⟨?_, firstUpdateValidationError_is_validation _ _ _ herr⟩
      simp [TimeEntryService.updateTimeEntry, hfind, hcan, herr]
    · intro hnone
      constructor
      · cases hres : TimeEntryService.updateTimeEntry st userId entryId input
            now todayDay with
        | error e =>
          exfalso
          simp [TimeEntryService.updateTimeEntry, hfind, hcan, hnone] at hres
        | ok res => exact ⟨res, rfl⟩
      · cases hres : TimeEntryService.deleteTimeEntry st userId entryId now with
        | error e =>
          exfalso
          simp [TimeEntryService.deleteTimeEntry, hfind, hcan] at hres
        | ok st2 => exact ⟨st2, rfl⟩

/-- Witness for C3: concrete NotFound outcome on the empty store. -/
theorem C3_modification_outcomes_witness :
    TimeEntryService.updateTimeEntry ⟨[], 0⟩ "emp-1" "entry-1"
        ⟨none, none, none, none, none, none, none⟩ 0 0
      = .error (.notFound "Time entry not found") ∧
    TimeEntryService.deleteTimeEntry ⟨[], 0⟩ "emp-1" "entry-1" 0
      = .error (.notFound "Time entry not found") :=
  (C3_modification_outcomes ⟨[], 0⟩ "emp-1" "entry-1"
    ⟨none, none, none, none, none, none, none⟩ 0 0).1 rfl

/-- C8: evaluation of the create path at a concrete valid input: the entry
is persisted (status pending, amount computed) and the operation completes;
the modelled service and store perform no audit-log write anywhere on this
path (the store has no audit collection and the service emits nothing
besides the entry), documenting the divergence from the claim. -/
theorem C8_createTimeEntry_emits_no_audit_eval :
    TimeEntryService.createTimeEntry ⟨[], 0⟩ "emp-1"
        ⟨"client-1", "service-1", 20000, none, 150, 7/2, true⟩ 0 20000
      = .ok
        ({ id := "entry-1", employeeId := "emp-1", clientId := "client-1",
           serviceId := "service-1", activityDate := 20000, memo := none,
           rate := 150, duration := 7/2, billable := true, amount := 525,
           status := .pending, createdAt := 0 },
         ⟨[{ id := "entry-1", employeeId := "emp-1", clientId := "client-1",
             serviceId := "service-1", activityDate := 20000, memo := none,
             rate := 150, duration := 7/2, billable := true, amount := 525,
             status := .pending, createdAt := 0 }], 1⟩) := by
  have hamount : TimeEntryService.calculateAmount 150 (7/2) true = 525 := by
    norm_num [TimeEntryService.calculateAmount, jsMathRound]
  have hid : "entry-" ++ natStr 1 = "entry-1" := by decide
  simp [TimeEntryService.createTimeEntry, Validators.validateRate,
    Validators.validateDuration, Validators.validateActivityDate,
    hamount, hid]
  norm_num

/-- The number returned by a single generateInvoiceNumber call is fresh. -/
theorem generateInvoiceNumber_fresh (pre : String) (year : Nat)
    (existing : List String) (c : Nat) :
    (InvoiceService.generateInvoiceNumber pre year existing c).1
      ∉ existing := by
  simpa [InvoiceService.generateInvoiceNumber] using
    Nat.find_spec (InvoiceService.exists_fresh pre year existing c)

/-- Each call strictly increases the counter state. -/
theorem generateInvoiceNumber_counter_lt (pre : String) (year : Nat)
    (existing : List String) (c : Nat) :
    c < (InvoiceService.generateInvoiceNumber pre year existing c).2 := by
  simp only [InvoiceService.generateInvoiceNumber]
  omega

/-- The returned number is the format applied to the returned counter. -/
theorem generateInvoiceNumber_fst_eq (pre : String) (year : Nat)
    (existing : List String) (c : Nat) :
    (InvoiceService.generateInvoiceNumber pre year existing c).1
      = InvoiceService.invoiceNumber pre year
          (InvoiceService.generateInvoiceNumber pre year existing c).2 := rfl

/-- Every number produced by a generation run corresponds to a counter
value strictly above the starting state and at most the final state. -/
theorem runInvoiceNumberGenerator_spec (pre : String) (year : Nat) :
    ∀ (exs : List (List String)) (c : Nat),
      c ≤ (InvoiceService.runInvoiceNumberGenerator pre year exs c).2 ∧
      ∀ s ∈ (InvoiceService.runInvoiceNumberGenerator pre year exs c).1,
        ∃ k, c < k ∧
          k ≤ (InvoiceService.runInvoiceNumberGenerator pre year exs c).2 ∧
          s = InvoiceService.invoiceNumber pre year k := by
  intro exs
  induction exs with
  | nil =>
    intro c
    simp [InvoiceService.runInvoiceNumberGenerator]
  | cons ex rest ih =>
    intro c
    obtain ⟨hle, hmem⟩ :=
      ih (InvoiceService.generateInvoiceNumber pre year ex c).2
    have hgt := generateInvoiceNumber_counter_lt pre year ex c
    constructor
    · simp only [InvoiceService.runInvoiceNumberGenerator]
      omega
    · intro s hs
      simp only [InvoiceService.runInvoiceNumberGenerator,
        List.mem_cons] at hs
      rcases hs with hs | hs
      · exact ⟨(InvoiceService.generateInvoiceNumber pre year ex c).2,
          hgt, hle, by rw [hs, generateInvoiceNumber_fst_eq]⟩
      · obtain ⟨k, hk1, hk2, hk3⟩ := hmem s hs
        exact ⟨k, by omega, hk2, hk3⟩

/-- The numbers produced by a generation run are pairwise distinct. -/
theorem runInvoiceNumberGenerator_nodup (pre : String) (year : Nat) :
    ∀ (exs : List (List String)) (c : Nat),
      (InvoiceService.runInvoiceNumberGenerator pre year exs c).1.Nodup := by
  intro exs
  induction exs with
  | nil =>
    intro c
    simp [InvoiceService.runInvoiceNumberGenerator]
  | cons ex rest ih =>
    intro c
    have hgt := generateInvoiceNumber_counter_lt pre year ex c
    simp only [InvoiceService.runInvoiceNumberGenerator, List.nodup_cons]
    refine ⟨?_, ih _⟩
    intro hmem
    obtain ⟨k, hk1, _, hk3⟩ :=
      (runInvoiceNumberGenerator_spec pre year rest
        (InvoiceService.generateInvoiceNumber pre year ex c).2).2 _ hmem
    rw [generateInvoiceNumber_fst_eq] at hk3
    have := invoiceNumber_inj pre year
      (by omega : (InvoiceService.generateInvoiceNumber pre year ex c).2 ≠ 0)
      (by omega : k ≠ 0) hk3
    omega

/-- One output per call. -/
theorem runInvoiceNumberGenerator_length (pre : String) (year : Nat) :
    ∀ (exs : List (List String)) (c : Nat),
      (InvoiceService.runInvoiceNumberGenerator pre year exs c).1.length
        = exs.length := by
  intro exs
  induction exs with
  | nil =>
    intro c
    simp [InvoiceService.runInvoiceNumberGenerator]
  | cons ex rest ih =>
    intro c
    simp [InvoiceService.runInvoiceNumberGenerator, ih]

/-- C5: generateInvoiceNumber terminates (it is a total function here,
with the retry loop realized by a well-founded least-fresh-offset search)
and returns a number not contained in existingNumbers; a sequence of N
calls within one process (counter threaded through, any existing sets)
yields N pairwise-distinct numbers. -/
theorem C5_generateInvoiceNumber_unique :
    (∀ (pre : String) (year : Nat) (existing : List String) (counter : Nat),
      (InvoiceService.generateInvoiceNumber pre year existing counter).1
        ∉ existing) ∧
    (∀ (pre : String) (year : Nat) (existingSeq : List (List String))
      (counter : Nat),
      (InvoiceService.runInvoiceNumberGenerator pre year existingSeq
          counter).1.length = existingSeq.length ∧
      (InvoiceService.runInvoiceNumberGenerator pre year existingSeq
          counter).1.Nodup) :=
  ⟨generateInvoiceNumber_fresh,
   fun pre year exs c =>
    ⟨runInvoiceNumberGenerator_length pre year exs c,
     runInvoiceNumberGenerator_nodup pre year exs c⟩⟩

/-- Time-entry line items carry exactly the source entries' ids and
amounts, in order. -/
theorem createLineItemsFromEntries_key_map (isoDay : ℤ → String) :
    ∀ (es : List InvoiceService.TimeEntry) (invId : String)
      (genId : Nat → String) (i : Nat),
      (InvoiceService.createLineItemsFromEntries isoDay es invId genId i).map
          (fun li => (li.timeEntryId, li.amount))
        = es.map (fun e => (some e.id, e.amount)) := by
  intro es
  induction es with
  | nil =>
    intro invId genId i
    simp [InvoiceService.createLineItemsFromEntries]
  | cons e rest ih =>
    intro invId genId i
    simp [InvoiceService.createLineItemsFromEntries, ih]

theorem createLineItemsFromEntries_types (isoDay : ℤ → String) :
    ∀ (es : List InvoiceService.TimeEntry) (invId : String)
      (genId : Nat → String) (i : Nat),
      ∀ li ∈ InvoiceService.createLineItemsFromEntries isoDay es invId genId i,
        li.itemType = InvoiceService.LineItemType.time_entry := by
  intro es
  induction es with
  | nil =>
    intro invId genId i li hli
    simp [InvoiceService.createLineItemsFromEntries] at hli
  | cons e rest ih =>
    intro invId genId i li hli
    simp only [InvoiceService.createLineItemsFromEntries,
      List.mem_cons] at hli
    rcases hli with hli | hli
    · rw [hli]
    · exact ih invId genId (i + 1) li hli

theorem createLineItemsFromCharges_types :
    ∀ (cs : List InvoiceService.AdditionalCharge) (invId : String)
      (genId : Nat → String) (i : Nat),
      ∀ li ∈ InvoiceService.createLineItemsFromCharges cs invId genId i,
        li.itemType = InvoiceService.LineItemType.additional_charge := by
  intro cs
  induction cs with
  | nil =>
    intro invId genId i li hli
    simp [InvoiceService.createLineItemsFromCharges] at hli
  | cons ch rest ih =>
    intro invId genId i li hli
    simp only [InvoiceService.createLineItemsFromCharges,
      List.mem_cons] at hli
    rcases hli with hli | hli
    · rw [hli]
    · exact ih invId genId (i + 1) li hli

/-- The reduce-sum of calculateInvoiceTotals is the sum of the amounts. -/
theorem foldl_amount (l : List InvoiceService.InvoiceLineItem) :
    ∀ a : ℚ, l.foldl (fun sum item => sum + item.amount) a
      = a + (l.map (fun item => item.amount)).sum := by
  induction l with
  | nil => intro a; simp
  | cons x xs ih =>
    intro a
    simp [ih, add_assoc]

/-- C4: the time_entry line items of generateInvoice are exactly (one per
entry, same multiplicity, same order) the entries with matching clientId,
billable = true and activityDate within [startDate, endDate] inclusive,
with each line item's amount copied from its source entry; subtotal and
total both equal the sum of all line item amounts (additional-charge items
included). -/
theorem C4_generateInvoice_line_items :
    ∀ (isoDay : ℤ → String) (input : InvoiceService.GenerateInvoiceInput)
      (entries : List InvoiceService.TimeEntry) (existing : List String)
      (genId : Nat → String) (counter year : Nat) (now : ℤ),
      (((InvoiceService.generateInvoice isoDay input entries existing genId
            counter year now).1.lineItems.filter
          (fun li => li.itemType == InvoiceService.LineItemType.time_entry)).map
          (fun li => (li.timeEntryId, li.amount))
        = (entries.filter (fun e =>
            e.clientId == input.clientId && e.billable &&
              decide (input.startDate ≤ e.activityDate) &&
              decide (e.activityDate ≤ input.endDate))).map
            (fun e => (some e.id, e.amount))) ∧
      (InvoiceService.generateInvoice isoDay input entries existing genId
          counter year now).1.subtotal
        = ((InvoiceService.generateInvoice isoDay input entries existing genId
            counter year now).1.lineItems.map
            (fun li => li.amount)).sum ∧
      (InvoiceService.generateInvoice isoDay input entries existing genId
          counter year now).1.total
        = (InvoiceService.generateInvoice isoDay input entries existing genId
            counter year now).1.subtotal := by
  intro isoDay input entries existing genId counter year now
  have hLI : (InvoiceService.generateInvoice isoDay input entries existing
      genId counter year now).1.lineItems
    = InvoiceService.createLineItemsFromEntries isoDay
        (InvoiceService.getBillableEntriesForInvoice entries input.clientId
          input.startDate input.endDate) (genId 0) genId 1 ++
      (match input.additionalCharges with
       | some cs =>
         InvoiceService.createLineItemsFromCharges cs (genId 0) genId
           (1 + (InvoiceService.getBillableEntriesForInvoice entries
             input.clientId input.startDate input.endDate).length)
       | none => []) := rfl
  have hfilter1 : (InvoiceService.createLineItemsFromEntries isoDay
      (InvoiceService.getBillableEntriesForInvoice entries input.clientId
        input.startDate input.endDate) (genId 0) genId 1).filter
      (fun li => li.itemType == InvoiceService.LineItemType.time_entry)
    = InvoiceService.createLineItemsFromEntries isoDay
        (InvoiceService.getBillableEntriesForInvoice entries input.clientId
          input.startDate input.endDate) (genId 0) genId 1 := by
    apply List.filter_eq_self.mpr
    intro li hli
    rw [createLineItemsFromEntries_types isoDay _ _ _ _ li hli]
    rfl
  have hfilter2 : ∀ (cs : List InvoiceService.AdditionalCharge) (i : Nat),
      (InvoiceService.createLineItemsFromCharges cs (genId 0) genId i).filter
        (fun li => li.itemType == InvoiceService.LineItemType.time_entry)
      = [] := by
    intro cs i
    apply List.filter_eq_nil_iff.mpr
    intro li hli
    rw [createLineItemsFromCharges_types cs _ _ _ li hli]
    simp
  refine ⟨?_, ?_, rfl⟩
  · rw [hLI, List.filter_append, hfilter1]
    have hrest : (match input.additionalCharges with
        | some cs =>
          InvoiceService.createLineItemsFromCharges cs (genId 0) genId
            (1 + (InvoiceService.getBillableEntriesForInvoice entries
              input.clientId input.startDate input.endDate).length)
        | none => ([] : List InvoiceService.InvoiceLineItem)).filter
        (fun (li : InvoiceService.InvoiceLineItem) =>
          li.itemType == InvoiceService.LineItemType.time_entry)
      = [] := by
      cases input.additionalCharges with
      | none => rfl
      | some cs => exact hfilter2 cs _
    rw [hrest, List.append_nil, createLineItemsFromEntries_key_map]
    rfl
  · have hsub : (InvoiceService.generateInvoice isoDay input entries existing
        genId counter year now).1.subtotal
      = ((InvoiceService.generateInvoice isoDay input entries existing genId
          counter year now).1.lineItems).foldl
          (fun sum item => sum + item.amount) 0 := rfl
    rw [hsub, foldl_amount, zero_add]

/-- C6 counterexample: with employeeId the empty string (falsy in JS), the
employee-specific lookup is skipped even though an employee-specific rate
matching (serviceId, employeeId) exists alongside a default, so the code
returns the default 7, not the employee-specific 5 the claim requires. -/
theorem C6_getEffectiveRate_counterexample :
    RateService.getEffectiveRate
        [⟨"r1", "s1", some "", 5⟩, ⟨"r2", "s1", none, 7⟩] "s1" (some "")
      = some 7 ∧
    RateService.getEffectiveRate
        [⟨"r1", "s1", some "", 5⟩, ⟨"r2", "s1", none, 7⟩] "s1" (some "")
      ≠ some 5 := by
  constructor <;> decide

/-- C6 (amended): for every nonempty employeeId: when the list contains an
employee-specific rate matching (serviceId, employeeId) (unique such
match), getEffectiveRate returns its hourlyRate, in particular when a
default is also present; when it contains no employee-specific match and a
unique default rate for the serviceId, it returns the default hourlyRate;
when it contains neither, it returns null. -/
theorem C6_getEffectiveRate_amended :
    ∀ (rates : List RateService.Rate) (serviceId employeeId : String),
      employeeId ≠ "" →
      (∀ re ∈ rates, re.serviceId = serviceId →
        re.employeeId = some employeeId →
        (∀ r2 ∈ rates, r2.serviceId = serviceId →
          r2.employeeId = some employeeId → r2 = re) →
        RateService.getEffectiveRate rates serviceId (some employeeId)
          = some re.hourlyRate) ∧
      ((∀ r ∈ rates, ¬(r.serviceId = serviceId ∧
          r.employeeId = some employeeId)) →
        ∀ rd ∈ rates, rd.serviceId = serviceId → rd.employeeId = none →
        (∀ r2 ∈ rates, r2.serviceId = serviceId → r2.employeeId = none →
          r2 = rd) →
        RateService.getEffectiveRate rates serviceId (some employeeId)
          = some rd.hourlyRate) ∧
      ((∀ r ∈ rates, ¬(r.serviceId = serviceId ∧
          r.employeeId = some employeeId)) →
        (∀ r ∈ rates, ¬(r.serviceId = serviceId ∧ r.employeeId = none)) →
        RateService.getEffectiveRate rates serviceId (some employeeId)
          = none) := by
  intro rates serviceId employeeId hne
  have htr : strTruthy (some employeeId) = true := by
    simp [strTruthy, hne]
  refine ⟨?_, ?_, ?_⟩
  · intro re hre hsid heid huniq
    cases hf : rates.find? (fun r =>
        r.serviceId == serviceId && r.employeeId == some employeeId) with
    | none =>
      exfalso
      have := List.find?_eq_none.mp hf re hre
      simp [hsid, heid] at this
    | some r0 =>
      have hp := List.find?_some hf
      simp only [Bool.and_eq_true, beq_iff_eq] at hp
      have hm := List.mem_of_find?_eq_some hf
      have h0 : r0 = re := huniq r0 hm hp.1 hp.2
      simp [RateService.getEffectiveRate, htr, hf, h0]
  · intro hnone rd hrd hsid heid huniq
    have hf : rates.find? (fun r =>
        r.serviceId == serviceId && r.employeeId == some employeeId)
      = none := by
      apply List.find?_eq_none.mpr
      intro r hr
      have := hnone r hr
      simp only [Bool.and_eq_true, beq_iff_eq]
      tauto
    cases hf2 : rates.find? (fun r =>
        r.serviceId == serviceId && r.employeeId == none) with
    | none =>
      exfalso
      have := List.find?_eq_none.mp hf2 rd hrd
      simp [hsid, heid] at this
    | some r0 =>
      have hp := List.find?_some hf2
      simp only [Bool.and_eq_true, beq_iff_eq] at hp
      have hm := List.mem_of_find?_eq_some hf2
      have h0 : r0 = rd := huniq r0 hm hp.1 hp.2
      simp [RateService.getEffectiveRate, htr, hf, hf2, h0]
  · intro hnone1 hnone2
    have hf : rates.find? (fun r =>
        r.serviceId == serviceId && r.employeeId == some employeeId)
      = none := by
      apply List.find?_eq_none.mpr
      intro r hr
      have := hnone1 r hr
      simp only [Bool.and_eq_true, beq_iff_eq]
      tauto
    have hf2 : rates.find? (fun r =>
        r.serviceId == serviceId && r.employeeId == none) = none := by
      apply List.find?_eq_none.mpr
      intro r hr
      have := hnone2 r hr
      simp only [Bool.and_eq_true, beq_iff_eq]
      tauto
    simp [RateService.getEffectiveRate, htr, hf, hf2]

/-- Witness for C6 (amended): an employee-specific 200 beats a default 150. -/
theorem C6_getEffectiveRate_amended_witness :
    RateService.getEffectiveRate
        [⟨"r1", "s1", some "e1", 200⟩, ⟨"r2", "s1", none, 150⟩]
        "s1" (some "e1")
      = some (200 : ℚ) :=
  (C6_getEffectiveRate_amended
      [⟨"r1", "s1", some "e1", 200⟩, ⟨"r2", "s1", none, 150⟩] "s1" "e1"
      (by decide)).1
    ⟨"r1", "s1", some "e1", 200⟩ (by decide) rfl rfl (by decide)

/-- C7 counterexample: an empty-string clientId filter is supplied but
falsy, so an entry with a different, nonempty clientId is still returned,
violating the claimed clientId equality for every supplied filter. -/
theorem C7_filterEntriesForEmployee_counterexample :
    Filtering.filterEntriesForEmployee
        [⟨"t1", "emp-1", "client-1", 0, true⟩] "emp-1"
        ⟨some "", none, none, none⟩
      = [⟨"t1", "emp-1", "client-1", 0, true⟩] ∧
    ("client-1" : String) ≠ "" := by
  constructor <;> decide

/-- C7 (amended): every entry returned by filterEntriesForEmployee has the
requested employeeId and satisfies every supplied optional filter, where a
supplied clientId constrains the result only when it is nonempty; date
bounds are inclusive, and a supplied billable flag is matched exactly. -/
theorem C7_filterEntriesForEmployee_amended :
    ∀ (entries : List Filtering.TimeEntry) (employeeId : String)
      (filters : Filtering.EmployeeFilters) (e : Filtering.TimeEntry),
      e ∈ Filtering.filterEntriesForEmployee entries employeeId filters →
      e.employeeId = employeeId ∧
      (∀ c, filters.clientId = some c → c ≠ "" → e.clientId = c) ∧
      (∀ s, filters.startDate = some s → s ≤ e.activityDate) ∧
      (∀ t, filters.endDate = some t → e.activityDate ≤ t) ∧
      (∀ b, filters.billable = some b → e.billable = b) := by
  intro entries employeeId filters e hmem
  have hp := (List.mem_filter.mp hmem).2
  simp only [Filtering.employeePred, Bool.and_eq_true, Bool.not_eq_true',
    beq_iff_eq] at hp
  obtain ⟨⟨⟨⟨h1, h2⟩, h3⟩, h4⟩, h5⟩ := hp
  refine ⟨h1, ?_, ?_, ?_, ?_⟩
  · intro c hc hcne
    rw [hc] at h2
    simpa [Filtering.truthyNeq, hcne] using h2
  · intro s hs
    rw [hs] at h3
    simpa [Filtering.beforeStart, not_lt] using h3
  · intro t ht
    rw [ht] at h4
    simpa [Filtering.afterEnd, not_lt] using h4
  · intro b hb
    rw [hb] at h5
    simpa [Filtering.billableMismatch] using h5

/-- Witness for C7 (amended): a matching entry passes all filters. -/
theorem C7_filterEntriesForEmployee_amended_witness :
    (⟨"t1", "emp-1", "client-1", 5, true⟩ :
      Filtering.TimeEntry).employeeId = "emp-1" :=
  (C7_filterEntriesForEmployee_amended
      [⟨"t1", "emp-1", "client-1", 5, true⟩] "emp-1"
      ⟨some "client-1", some 0, some 10, some true⟩
      ⟨"t1", "emp-1", "client-1", 5, true⟩ (by decide)).1

/-- An empty-string filter value is falsy and never rejects. -/
theorem truthyNeq_empty (v : String) :
    Filtering.truthyNeq (some "") v = false := by
  simp [Filtering.truthyNeq]

/-- C10: supplying an empty-string value for a string filter imposes no
constraint: the result equals the result with that filter absent, for
clientId in filterEntriesForEmployee and for employeeId and clientId in
filterEntriesForAdmin. -/
theorem C10_empty_string_filters_no_constraint :
    (∀ (entries : List Filtering.TimeEntry) (employeeId : String)
      (s t : Option ℤ) (b : Option Bool),
      Filtering.filterEntriesForEmployee entries employeeId
          ⟨some "", s, t, b⟩
        = Filtering.filterEntriesForEmployee entries employeeId
            ⟨none, s, t, b⟩) ∧
    (∀ (entries : List Filtering.TimeEntry) (cid : Option String)
      (s t : Option ℤ) (b : Option Bool),
      Filtering.filterEntriesForAdmin entries ⟨some "", cid, s, t, b⟩
        = Filtering.filterEntriesForAdmin entries ⟨none, cid, s, t, b⟩) ∧
    (∀ (entries : List Filtering.TimeEntry) (eid : Option String)
      (s t : Option ℤ) (b : Option Bool),
      Filtering.filterEntriesForAdmin entries ⟨eid, some "", s, t, b⟩
        = Filtering.filterEntriesForAdmin entries ⟨eid, none, s, t, b⟩) := by
  refine ⟨?_, ?_, ?_⟩
  · intro entries employeeId s t b
    apply List.filter_congr
    intro x _
    simp [Filtering.employeePred, truthyNeq_empty, Filtering.truthyNeq]
  · intro entries cid s t b
    apply List.filter_congr
    intro x _
    simp [Filtering.adminPred, truthyNeq_empty, Filtering.truthyNeq]
  · intro entries eid s t b
    apply List.filter_congr
    intro x _
    simp [Filtering.adminPred, truthyNeq_empty, Filtering.truthyNeq]

/-- C9: parse ∘ export yields a list of the same length in the same order
where each element's memo is reproduced exactly, duration, rate and amount
within tolerance 1e-6 (here: exactly), billable via the Yes/No encoding,
and the activity date at day granularity. -/
theorem C9_excel_round_trip :
    ∀ (entries : List ExcelService.TimeEntryExport),
      (ExcelService.parseExportedData
          (ExcelService.transformEntriesForExport entries)).length
        = entries.length ∧
      List.Forall₂ (fun (p : ExcelService.ParsedEntry)
          (o : ExcelService.TimeEntryExport) =>
        p.memo = some o.memo ∧
        |p.duration - o.duration| ≤ 1/1000000 ∧
        |p.rate - o.rate| ≤ 1/1000000 ∧
        |p.amount - o.amount| ≤ 1/1000000 ∧
        p.billable = o.billable ∧
        (∃ ms, p.activityDate = some ms ∧
          ExcelService.dayOfMs ms = ExcelService.dayOfMs o.activityDate))
        (ExcelService.parseExportedData
          (ExcelService.transformEntriesForExport entries)) entries := by
  intro entries
  induction entries with
  | nil =>
    exact ⟨rfl, List.Forall₂.nil⟩
  | cons e rest ih =>
    refine ⟨?_, ?_⟩
    · simp [ExcelService.parseExportedData,
        ExcelService.transformEntriesForExport]
    · refine List.Forall₂.cons ⟨rfl, ?_, ?_, ?_, ?_, ?_⟩ ih.2
      · simp
      · simp
      · simp
      · show ((if e.billable then "Yes" else "No") == "Yes") = e.billable
        cases e.billable <;> rfl
      · refine ⟨ExcelService.dayOfMs e.activityDate * ExcelService.msPerDay,
          rfl, ?_⟩
        show ExcelService.dayOfMs
            (ExcelService.dayOfMs e.activityDate * ExcelService.msPerDay)
          = ExcelService.dayOfMs e.activityDate
        unfold ExcelService.dayOfMs
        exact Int.mul_fdiv_cancel _ (by norm_num [ExcelService.msPerDay])
